import Mathlib

/-!
Verification of the viewfinder `AppState` persistent-store layer
(`src/clients/shared/AppState.h`): the transaction/snapshot API, the durable
operation-id allocator, the migration and FSCK framework, and the auth-metadata
setters. Only the class header is present in the repository; member function
bodies live in a `.cc` file that is not part of the source tree, so those
operations are modelled from the specification (each such definition says so in
its doc comment). The inline members of the header (`SetDeviceId`, `SetUserId`,
`is_registered`) are translated directly from the code.
-/

namespace Viewfinder

/-! ### Key-value store

Modelled from the spec: the underlying `DB` (declared in `DB.h`, which is not
in the source tree) is an ordered byte-key/byte-value persistent medium; keys
and values are byte strings; records are deleted via tombstone writes. The
store is represented as a journal of bindings, the most recent binding for a
key wins, and a `none` binding is a deletion tombstone. -/

/-- Auth metadata record (from `AuthMetadata.pb.h`, not in the source tree):
user id, device id and the two auth cookies, per the spec's data model. -/
structure AuthMetadata where
  user_id : Int
  device_id : Int
  user_cookie : String
  xsrf_cookie : String
deriving DecidableEq, Repr

abbrev Key := String

/-- A stored value: a plain byte string, a serialized integer (the schema
version reserved key), or a serialized auth-metadata record (the identity
reserved key). Serialization is modelled as the identity on the record. -/
inductive Value where
  | str (s : String)
  | nat (n : Nat)
  | auth (a : AuthMetadata)
deriving DecidableEq, Repr

/-- The committed contents of the store: a journal of bindings, most recent
first; a `none` value is a deletion tombstone. -/
abbrev Store := List (Key × Option Value)

/-- Read a key from the store: the most recent binding wins; `none` when the
key is absent or its most recent binding is a tombstone. -/
def storeGet : Store → Key → Option Value
  | [], _ => none
  | (k2, v) :: s, k => if k2 = k then v else storeGet s k

/-- A buffered mutation of a write transaction: a put or a tombstone delete. -/
inductive Mutation where
  | put (k : Key) (v : Value)
  | del (k : Key)
deriving DecidableEq, Repr

/-- Apply one mutation to the committed store (journal prepend). -/
def applyMut (s : Store) : Mutation → Store
  | .put k v => (k, some v) :: s
  | .del k => (k, none) :: s

/-- Modelled from the spec: `Commit()` atomically applies a write
transaction's buffered mutations, in order, to the committed store
(the body of the commit path is in the missing `DB.cc`). -/
def commit (s : Store) (ms : List Mutation) : Store :=
  ms.foldl applyMut s

/-- The effect of a single mutation on a single key: `none` when the mutation
does not touch the key, otherwise the value it installs (`some none` for a
tombstone delete). -/
def mutEffect : Mutation → Key → Option (Option Value)
  | .put k2 v, k => if k2 = k then some (some v) else none
  | .del k2, k => if k2 = k then some none else none

/-- The net effect of a buffered mutation list on a key: the LAST mutation
touching the key wins; `none` when no mutation touches it. -/
def pendingGet : List Mutation → Key → Option (Option Value)
  | [], _ => none
  | m :: ms, k =>
    match pendingGet ms k with
    | some r => some r
    | none => mutEffect m k

theorem storeGet_applyMut (s : Store) (m : Mutation) (k : Key) :
    storeGet (applyMut s m) k = (mutEffect m k).getD (storeGet s k) := by
  cases m with
  | put k2 v =>
    simp only [applyMut, mutEffect, storeGet]
    by_cases h : k2 = k <;> simp [h]
  | del k2 =>
    simp only [applyMut, mutEffect, storeGet]
    by_cases h : k2 = k <;> simp [h]

theorem storeGet_commit (ms : List Mutation) (s : Store) (k : Key) :
    storeGet (commit s ms) k = (pendingGet ms k).getD (storeGet s k) := by
  induction ms generalizing s with
  | nil => rfl
  | cons m ms ih =>
    show storeGet (commit (applyMut s m) ms) k = _
    rw [ih]
    cases h : pendingGet ms k with
    | some r => simp [pendingGet, h]
    | none => simp [pendingGet, h, storeGet_applyMut]

theorem pendingGet_append (p q : List Mutation) (k : Key) :
    pendingGet (p ++ q) k =
      match pendingGet q k with
      | some r => some r
      | none => pendingGet p k := by
  induction p with
  | nil => cases h : pendingGet q k <;> simp [pendingGet, h]
  | cons m p ih =>
    show (match pendingGet (p ++ q) k with
      | some r => some r
      | none => mutEffect m k) = _
    rw [ih]
    cases h : pendingGet q k
    · cases h2 : pendingGet p k <;> simp [pendingGet, h2]
    · rfl

/-- Apply a sequence of commits, in ordinal order, to the committed store. -/
def commitAll (s : Store) (cs : List (List Mutation)) : Store :=
  cs.foldl commit s

theorem storeGet_commitAll_untouched (s : Store) (cs : List (List Mutation))
    (k : Key) (h : ∀ d ∈ cs, pendingGet d k = none) :
    storeGet (commitAll s cs) k = storeGet s k := by
  induction cs generalizing s with
  | nil => rfl
  | cons c cs ih =>
    show storeGet (commitAll (commit s c) cs) k = _
    rw [ih _ fun d hd => h d (List.mem_cons_of_mem _ hd), storeGet_commit,
      h c (List.mem_cons_self c cs)]
    rfl

/-- C3: for any sequence of commits, the value visible for key `k` after all
commits are applied is the value written by the commit with the greatest
ordinal that touches `k` (last-write-wins); commits after it that do not touch
`k` leave that value intact, regardless of which handle produced each commit. -/
theorem last_write_wins (s0 : Store) (pre post : List (List Mutation))
    (c : List Mutation) (k : Key) (r : Option Value)
    (hc : pendingGet c k = some r)
    (hpost : ∀ d ∈ post, pendingGet d k = none) :
    storeGet (commitAll s0 (pre ++ c :: post)) k = r := by
  have : commitAll s0 (pre ++ c :: post) = commitAll (commit (commitAll s0 pre) c) post := by
    simp [commitAll, List.foldl_append]
  rw [this, storeGet_commitAll_untouched _ _ _ hpost, storeGet_commit, hc]
  rfl

/-- Witness for C3 at a concrete commit sequence: the store ends up with the
value written by the third commit, the last one touching key `a`. -/
theorem last_write_wins_witness :
    (pendingGet [Mutation.put "a" (Value.str "two"), Mutation.put "a" (Value.str "three")] "a"
        = some (some (Value.str "three"))
      ∧ (∀ d ∈ [[Mutation.put "b" (Value.str "four")]], pendingGet d "a" = none))
    ∧ storeGet (commitAll []
        ([[Mutation.put "a" (Value.str "one")]]
          ++ [Mutation.put "a" (Value.str "two"), Mutation.put "a" (Value.str "three")]
          :: [[Mutation.put "b" (Value.str "four")]])) "a"
        = some (Value.str "three") :=
  ⟨⟨by decide, by decide⟩,
    last_write_wins [] [[Mutation.put "a" (Value.str "one")]]
      [[Mutation.put "b" (Value.str "four")]]
      [Mutation.put "a" (Value.str "two"), Mutation.put "a" (Value.str "three")]
      "a" (some (Value.str "three")) (by decide) (by decide)⟩

/-! ### Handles: write transactions and snapshots

Modelled from the spec: `NewDBTransaction()` returns a handle whose puts and
deletes are buffered and become visible through `db()` only on commit
(header comment, `AppState.h` lines 145--151); `NewDBSnapshot()` returns a
read-only handle whose view is fixed at creation for as long as a reference
exists (lines 153--156). The handle bodies live in the missing `DB.cc`.
A `World` carries the committed store, the views of the live snapshots
(indexed by creation order, `none` once released) and the pending buffers of
the open write transactions (`none` once committed or abandoned). -/

structure World where
  dbst : Store
  nsnaps : Nat
  snaps : Nat → Option Store
  ntxns : Nat
  txns : Nat → Option (List Mutation)

/-- An operation on the world: create or release a snapshot, create a write
transaction, buffer a put or delete on it, commit it, or abandon it. -/
inductive Op where
  | newSnap
  | releaseSnap (i : Nat)
  | newTxn
  | txnPut (i : Nat) (k : Key) (v : Value)
  | txnDel (i : Nat) (k : Key)
  | commitTxn (i : Nat)
  | abandonTxn (i : Nat)

/-- One step of the world. Operations on a handle that is not live leave the
world unchanged. -/
def stepOp (w : World) : Op → World
  | .newSnap =>
    { w with nsnaps := w.nsnaps + 1,
             snaps := fun j => if j = w.nsnaps then some w.dbst else w.snaps j }
  | .releaseSnap i =>
    { w with snaps := fun j => if j = i then none else w.snaps j }
  | .newTxn =>
    { w with ntxns := w.ntxns + 1,
             txns := fun j => if j = w.ntxns then some [] else w.txns j }
  | .txnPut i k v =>
    match w.txns i with
    | some p => { w with txns := fun j => if j = i then some (p ++ [.put k v]) else w.txns j }
    | none => w
  | .txnDel i k =>
    match w.txns i with
    | some p => { w with txns := fun j => if j = i then some (p ++ [.del k]) else w.txns j }
    | none => w
  | .commitTxn i =>
    match w.txns i with
    | some p => { w with dbst := commit w.dbst p,
                         txns := fun j => if j = i then none else w.txns j }
    | none => w
  | .abandonTxn i =>
    match w.txns i with
    | some _ => { w with txns := fun j => if j = i then none else w.txns j }
    | none => w

/-- Execute a sequence of operations. -/
def runOps (w : World) : List Op → World
  | [] => w
  | o :: ops => runOps (stepOp w o) ops

/-- Read key `k` through the committed store, as `db()` does. -/
def dbGet (w : World) (k : Key) : Option Value :=
  storeGet w.dbst k

/-- Read key `k` through snapshot handle `i`: `none` when the handle is not
live, otherwise the value in its fixed view. -/
def snapGet (w : World) (i : Nat) (k : Key) : Option (Option Value) :=
  (w.snaps i).map fun view => storeGet view k

/-- Read key `k` through write-transaction handle `i`: its own buffered
mutations overlaid on the committed store. -/
def txnGet (w : World) (i : Nat) (k : Key) : Option (Option Value) :=
  (w.txns i).map fun p => (pendingGet p k).getD (storeGet w.dbst k)

theorem nsnaps_mono (w : World) (o : Op) : w.nsnaps ≤ (stepOp w o).nsnaps := by
  cases o <;> simp only [stepOp] <;> first
    | omega
    | (rename_i i _ _; cases h : w.txns i <;> simp)
    | (rename_i i _; cases h : w.txns i <;> simp)
    | (rename_i i; cases h : w.txns i <;> simp)

theorem snaps_stable_step (w : World) (o : Op) (i : Nat) (v : Store)
    (hi : i < w.nsnaps) (h : (stepOp w o).snaps i = some v) :
    w.snaps i = some v := by
  cases o with
  | newSnap =>
    simp only [stepOp] at h
    rwa [if_neg (by omega)] at h
  | releaseSnap j =>
    simp only [stepOp] at h
    by_cases hj : i = j
    · rw [if_pos hj] at h; exact absurd h (by simp)
    · rwa [if_neg hj] at h
  | newTxn => exact h
  | txnPut j k v2 =>
    simp only [stepOp] at h
    cases hw : w.txns j <;> rw [hw] at h <;> exact h
  | txnDel j k =>
    simp only [stepOp] at h
    cases hw : w.txns j <;> rw [hw] at h <;> exact h
  | commitTxn j =>
    simp only [stepOp] at h
    cases hw : w.txns j <;> rw [hw] at h <;> exact h
  | abandonTxn j =>
    simp only [stepOp] at h
    cases hw : w.txns j <;> rw [hw] at h <;> exact h

theorem snaps_stable_run (w : World) (ops : List Op) (i : Nat) (v : Store)
    (hi : i < w.nsnaps) (h : (runOps w ops).snaps i = some v) :
    w.snaps i = some v := by
  induction ops generalizing w with
  | nil => exact h
  | cons o ops ih =>
    exact snaps_stable_step w o i v hi
      (ih (stepOp w o) (lt_of_lt_of_le hi (nsnaps_mono w o)) h)

/-- C4: a snapshot handle created by `NewDBSnapshot` never observes the
effects of commits performed after its creation: after ANY sequence of
further operations, as long as the handle is still live, a read through it
returns exactly the value committed at its creation. -/
theorem snapshot_view_fixed (w : World) (ops : List Op) (k : Key)
    (r : Option Value)
    (h : snapGet (runOps (stepOp w Op.newSnap) ops) w.nsnaps k = some r) :
    r = dbGet w k := by
  simp only [snapGet, Option.map_eq_some'] at h
  obtain ⟨view, hview, hr⟩ := h
  have hstable : (stepOp w Op.newSnap).snaps w.nsnaps = some view :=
    snaps_stable_run _ ops w.nsnaps view (by simp [stepOp]) hview
  have hv : w.dbst = view := by simpa [stepOp] using hstable
  rw [← hr, ← hv]
  rfl

/-- Witness for C4: a snapshot of a store holding `k ↦ old` still reads `old`
after a later transaction commits `new` to `k`. -/
theorem snapshot_view_fixed_witness :
    (snapGet (runOps (stepOp (World.mk [("k", some (Value.str "old"))] 0
          (fun _ => none) 0 (fun _ => none)) Op.newSnap)
        [Op.newTxn, Op.txnPut 0 "k" (Value.str "new"), Op.commitTxn 0]) 0 "k"
      = some (some (Value.str "old")))
    ∧ some (Value.str "old")
      = dbGet (World.mk [("k", some (Value.str "old"))] 0
          (fun _ => none) 0 (fun _ => none)) "k" :=
  ⟨by decide,
    snapshot_view_fixed
      (World.mk [("k", some (Value.str "old"))] 0 (fun _ => none) 0 (fun _ => none))
      [Op.newTxn, Op.txnPut 0 "k" (Value.str "new"), Op.commitTxn 0]
      "k" (some (Value.str "old")) (by decide)⟩

/-- C5: for a live write-transaction handle `i`, a put through the handle is
visible to a read through that same handle, but changes neither the committed
store read by `db()`, nor any snapshot, nor any other handle; the same holds
for a delete, which reads back as not-found through the handle; abandoning
the handle leaves the committed store, the snapshots and every other handle
untouched; and only committing makes the put visible through `db()`. -/
theorem txn_buffer_isolation (w : World) (i : Nat) (p : List Mutation)
    (k : Key) (v : Value) (h : w.txns i = some p) :
    txnGet (stepOp w (Op.txnPut i k v)) i k = some (some v)
    ∧ (stepOp w (Op.txnPut i k v)).dbst = w.dbst
    ∧ (stepOp w (Op.txnPut i k v)).snaps = w.snaps
    ∧ (∀ j, j ≠ i → (stepOp w (Op.txnPut i k v)).txns j = w.txns j)
    ∧ txnGet (stepOp w (Op.txnDel i k)) i k = some none
    ∧ (stepOp w (Op.txnDel i k)).dbst = w.dbst
    ∧ (stepOp w (Op.abandonTxn i)).dbst = w.dbst
    ∧ (stepOp w (Op.abandonTxn i)).snaps = w.snaps
    ∧ (∀ j, j ≠ i → (stepOp w (Op.abandonTxn i)).txns j = w.txns j)
    ∧ dbGet (stepOp (stepOp w (Op.txnPut i k v)) (Op.commitTxn i)) k = some v := by
  have hput : stepOp w (Op.txnPut i k v) =
      { w with txns := fun j => if j = i then some (p ++ [.put k v]) else w.txns j } := by
    simp [stepOp, h]
  have hdel : stepOp w (Op.txnDel i k) =
      { w with txns := fun j => if j = i then some (p ++ [.del k]) else w.txns j } := by
    simp [stepOp, h]
  have haband : stepOp w (Op.abandonTxn i) =
      { w with txns := fun j => if j = i then none else w.txns j } := by
    simp [stepOp, h]
  refine ⟨?_, ?_, ?_, ?_, ?_, ?_, ?_, ?_, ?_, ?_⟩
  · rw [hput]
    simp [txnGet, pendingGet_append, pendingGet, mutEffect]
  · rw [hput]
  · rw [hput]
  · intro j hj
    rw [hput]
    simp [hj]
  · rw [hdel]
    simp [txnGet, pendingGet_append, pendingGet, mutEffect]
  · rw [hdel]
  · rw [haband]
  · rw [haband]
  · intro j hj
    rw [haband]
    simp [hj]
  · rw [hput]
    show dbGet (stepOp _ (Op.commitTxn i)) k = some v
    simp only [stepOp, if_pos rfl]
    simp [dbGet, storeGet_commit, pendingGet_append, pendingGet, mutEffect]

/-- Witness for C5 at a concrete world with one open write transaction over a
store holding `k ↦ old`. -/
theorem txn_buffer_isolation_witness :
    ((World.mk [("k", some (Value.str "old"))] 0 (fun _ => none) 1
        (fun j => if j = 0 then some [] else none)).txns 0 = some [])
    ∧ (let w := World.mk [("k", some (Value.str "old"))] 0 (fun _ => none) 1
        (fun j => if j = 0 then some [] else none)
      txnGet (stepOp w (Op.txnPut 0 "k" (Value.str "new"))) 0 "k"
          = some (some (Value.str "new"))
      ∧ (stepOp w (Op.txnPut 0 "k" (Value.str "new"))).dbst = w.dbst
      ∧ (stepOp w (Op.txnPut 0 "k" (Value.str "new"))).snaps = w.snaps
      ∧ (∀ j, j ≠ 0 → (stepOp w (Op.txnPut 0 "k" (Value.str "new"))).txns j = w.txns j)
      ∧ txnGet (stepOp w (Op.txnDel 0 "k")) 0 "k" = some none
      ∧ (stepOp w (Op.txnDel 0 "k")).dbst = w.dbst
      ∧ (stepOp w (Op.abandonTxn 0)).dbst = w.dbst
      ∧ (stepOp w (Op.abandonTxn 0)).snaps = w.snaps
      ∧ (∀ j, j ≠ 0 → (stepOp w (Op.abandonTxn 0)).txns j = w.txns j)
      ∧ dbGet (stepOp (stepOp w (Op.txnPut 0 "k" (Value.str "new"))) (Op.commitTxn 0)) "k"
          = some (Value.str "new")) :=
  ⟨rfl,
    txn_buffer_isolation
      (World.mk [("k", some (Value.str "old"))] 0 (fun _ => none) 1
        (fun j => if j = 0 then some [] else none))
      0 [] "k" (Value.str "new") rfl⟩

/-! ### Operation-id allocator

Modelled from the spec: `NewLocalOperationId()` (declared in `AppState.h`
line 143; its body is in the missing `AppState.cc`) returns the next value of
the per-identity counter `next_op_id_` while holding `next_op_id_mu_`, and the
updated counter is durably persisted before the call returns. The mutex means
concurrent calls serialize, so any single- or multi-threaded execution is some
sequential interleaving of the calls, which `allocMany` models. A crash
restores the in-memory counter from the persisted high-water mark. The spec
calls the counter 64-bit and monotonically increasing, never reused; it is
modelled as an unbounded integer, which agrees with `int64_t` on every
execution the spec admits (the counter only ever advances by one per call). -/

structure AllocState where
  next_op_id : Int
  disk : Int
deriving DecidableEq, Repr

/-- Modelled from the spec: one call to `NewLocalOperationId()` under the
mutex: return the counter's current value and persist the advanced counter
before returning. -/
def NewLocalOperationId (s : AllocState) : Int × AllocState :=
  (s.next_op_id, ⟨s.next_op_id + 1, s.next_op_id + 1⟩)

/-- The ids handed out by `n` consecutive calls, with the final state. -/
def allocMany (s : AllocState) : Nat → List Int × AllocState
  | 0 => ([], s)
  | n + 1 =>
    let r := NewLocalOperationId s
    let rest := allocMany r.2 n
    (r.1 :: rest.1, rest.2)

/-- Modelled from the spec: a crash discards the in-memory counter; on
restart it is re-initialized from the persisted high-water mark. -/
def crashRestart (s : AllocState) : AllocState :=
  ⟨s.disk, s.disk⟩

theorem allocMany_ids (s : AllocState) (n : Nat) :
    (allocMany s n).1 = (List.range n).map fun i : Nat => s.next_op_id + (i : Int) := by
  induction n generalizing s with
  | zero => rfl
  | succ n ih =>
    show s.next_op_id :: (allocMany ⟨s.next_op_id + 1, s.next_op_id + 1⟩ n).1 = _
    rw [ih, List.range_succ_eq_map, List.map_cons, List.map_map]
    refine congrArg₂ _ (by simp) (List.map_congr_left fun a _ => ?_)
    simp only [Function.comp_apply, Nat.succ_eq_add_one]
    push_cast
    ring

theorem allocMany_state (s : AllocState) (n : Nat) :
    (allocMany s (n + 1)).2 = ⟨s.next_op_id + (n + 1), s.next_op_id + (n + 1)⟩ := by
  induction n generalizing s with
  | zero => simp [allocMany, NewLocalOperationId]
  | succ n ih =>
    show (allocMany ⟨s.next_op_id + 1, s.next_op_id + 1⟩ (n + 1)).2 = _
    rw [ih]
    congr 1 <;> push_cast <;> ring

/-- C1: `NewLocalOperationId()` called `n` times (the mutex serializes the
calls, so this covers single- and multi-threaded use) yields `n` pairwise
distinct values; each call returns the current counter value and advances the
persisted counter. -/
theorem new_local_operation_id_distinct (s : AllocState) (n : Nat) :
    (allocMany s n).1.Nodup
    ∧ (allocMany s n).1.length = n
    ∧ (NewLocalOperationId s).1 = s.next_op_id
    ∧ (NewLocalOperationId s).2.next_op_id = s.next_op_id + 1
    ∧ (NewLocalOperationId s).2.disk = s.next_op_id + 1 := by
  refine ⟨?_, ?_, rfl, rfl, rfl⟩
  · rw [allocMany_ids]
    exact (List.nodup_range n).map fun a b hab => by omega
  · rw [allocMany_ids]
    simp

/-- C2: ids never repeat across a crash: if `n + 1` allocations were made (the
last one being the high-water mark `K`), then after a crash and restart every
later-allocated id is strictly greater than every id allocated before the
crash, `K` included. -/
theorem no_id_reuse_across_crash (s : AllocState) (n m : Nat) (x y : Int)
    (hx : x ∈ (allocMany s (n + 1)).1)
    (hy : y ∈ (allocMany (crashRestart (allocMany s (n + 1)).2) m).1) :
    x < y := by
  rw [allocMany_ids] at hx
  rw [allocMany_state] at hy
  rw [show crashRestart ⟨s.next_op_id + (n + 1), s.next_op_id + (n + 1)⟩
      = ⟨s.next_op_id + (n + 1), s.next_op_id + (n + 1)⟩ from rfl] at hy
  rw [allocMany_ids] at hy
  simp only [List.mem_map, List.mem_range] at hx hy
  obtain ⟨a, ha, rfl⟩ := hx
  obtain ⟨b, hb, rfl⟩ := hy
  show s.next_op_id + (a : Int) < s.next_op_id + (n + 1) + (b : Int)
  omega

/-- Witness for C2: starting from counter 1, one allocation hands out id 1;
after a crash and restart the next allocation hands out id 2 > 1. -/
theorem no_id_reuse_across_crash_witness :
    ((1 : Int) ∈ (allocMany ⟨1, 1⟩ 1).1
      ∧ (2 : Int) ∈ (allocMany (crashRestart (allocMany ⟨1, 1⟩ 1).2) 1).1)
    ∧ (1 : Int) < 2 :=
  ⟨⟨by decide, by decide⟩,
    no_id_reuse_across_crash ⟨1, 1⟩ 0 1 1 2 (by decide) (by decide)⟩

/-! ### Migration runner and FSCK

Modelled from the spec: `MaybeMigrate` is pure virtual in `AppState.h`
(line 270) and `MaybeFSCK` (line 271) and `Init` (line 92) have their bodies
in the missing `AppState.cc`; they are modelled from the spec's
MigrationRunner and IntegrityChecker designs. The persisted schema version
lives under a reserved key. -/

def versionKey : Key := "schema_version"

/-- The persisted schema version: 0 at store creation. -/
def storeVersion (s : Store) : Nat :=
  match storeGet s versionKey with
  | some (.nat n) => n
  | _ => 0

/-- A migration step: the schema version it produces, and its data
transformation, which runs inside the step's transaction and yields the
mutations to buffer, or fails. -/
structure MigrationStep where
  version : Nat
  transform : Store → Option (List Mutation)

/-- Modelled from the spec: `MaybeMigrate` reads the persisted version and,
for each step with a greater target version (steps are listed in ascending
order), opens a write transaction, applies the step's transformation, writes
the new version number IN THE SAME transaction and commits; a step failure
abandons its transaction (store unchanged) and stops with a fatal result. -/
def runMigrations (s : Store) : List MigrationStep → Bool × Store
  | [] => (true, s)
  | step :: rest =>
    if storeVersion s < step.version then
      match step.transform s with
      | none => (false, s)
      | some muts =>
        runMigrations (commit s (muts ++ [.put versionKey (.nat step.version)])) rest
    else
      runMigrations s rest

/-- A pluggable per-table integrity checker: given the store it reports
whether it found no unresolved issue, and the repairs to commit. -/
structure Checker where
  check : Store → Bool × List Mutation

/-- Modelled from the spec: the FSCK orchestration runs every checker, each
inside its own transaction whose repairs are committed atomically, even when
earlier checkers fail; it returns the aggregate result, the repaired store,
and one progress message per checker. -/
def fsckAll (s : Store) : List Checker → Bool × Store × List String
  | [] => (true, s, [])
  | c :: rest =>
    let r := c.check s
    let rec2 := fsckAll (commit s r.2) rest
    (r.1 && rec2.1, rec2.2.1, "checker done" :: rec2.2.2)

/-- Modelled from the spec: `MaybeFSCK` runs all registered checkers and
invokes the progress callback once per checker plus a final summary; success
iff every checker reported no unresolved issue. -/
def MaybeFSCK (s : Store) (cs : List Checker) : Bool × Store × List String :=
  let r := fsckAll s cs
  (r.1, r.2.1, r.2.2 ++ ["fsck done"])

/-- The verdict each checker reports, in orchestration order (each checker
sees the store as repaired by its predecessors). -/
def fsckVerdicts (s : Store) : List Checker → List Bool
  | [] => []
  | c :: rest => (c.check s).1 :: fsckVerdicts (commit s (c.check s).2) rest

/-- Modelled from the spec: `Init` opens the store, runs the migrations — a
migration failure is fatal and `Init` reports failure — and then, when the
dirty flag or the force flag asks for it, runs the FSCK pass, whose result is
surfaced only through maintenance callbacks and never fails `Init`. -/
def Init (s : Store) (steps : List MigrationStep) (cs : List Checker)
    (doFsck : Bool) : Bool × Store :=
  let m := runMigrations s steps
  if m.1 then
    (true, if doFsck then (MaybeFSCK m.2 cs).2.1 else m.2)
  else
    (false, m.2)

theorem fsckAll_verdicts (s : Store) (cs : List Checker) :
    (fsckAll s cs).1 = (fsckVerdicts s cs).all id := by
  induction cs generalizing s with
  | nil => rfl
  | cons c rest ih =>
    show ((c.check s).1 && (fsckAll (commit s (c.check s).2) rest).1)
        = (fsckVerdicts s (c :: rest)).all id
    rw [ih]
    simp [fsckVerdicts]

theorem fsckAll_messages (s : Store) (cs : List Checker) :
    (fsckAll s cs).2.2.length = cs.length := by
  induction cs generalizing s with
  | nil => rfl
  | cons c rest ih =>
    show ("checker done" :: (fsckAll (commit s (c.check s).2) rest).2.2).length = _
    simp [ih]

/-- C7: the FSCK pass runs every registered checker even when some fail — the
progress callback fires once per checker plus a final summary — its result is
success exactly when every checker reported no unresolved issue, and it never
fails `Init`: `Init`'s verdict equals the migration verdict whatever the
checkers report and whether or not the pass runs. -/
theorem maybe_fsck_properties (s : Store) (cs : List Checker)
    (steps : List MigrationStep) (doFsck : Bool) :
    (MaybeFSCK s cs).1 = (fsckVerdicts s cs).all id
    ∧ (fsckVerdicts s cs).length = cs.length
    ∧ (MaybeFSCK s cs).2.2.length = cs.length + 1
    ∧ (Init s steps cs doFsck).1 = (runMigrations s steps).1 := by
  refine ⟨fsckAll_verdicts s cs, ?_, ?_, ?_⟩
  · induction cs generalizing s with
    | nil => rfl
    | cons c rest ih => simp [fsckVerdicts, ih]
  · show ((fsckAll s cs).2.2 ++ ["fsck done"]).length = cs.length + 1
    simp [fsckAll_messages]
  · unfold Init
    cases h : (runMigrations s steps).1 <;> simp [h]

/-- C6: a failing migration step is abandoned: the store — and with it the
persisted schema version — is exactly what it was before the step, no later
step runs, and the failure is fatal: `Init` reports failure. A succeeding
step commits its data transformation and its version bump in one single
commit, after which the persisted version equals the step's target. -/
theorem migration_step_atomic (s : Store) (step : MigrationStep)
    (rest steps : List MigrationStep) (cs : List Checker) (doFsck : Bool) :
    (storeVersion s < step.version → step.transform s = none →
      runMigrations s (step :: rest) = (false, s))
    ∧ (∀ muts, storeVersion s < step.version → step.transform s = some muts →
      runMigrations s (step :: rest)
          = runMigrations (commit s (muts ++ [.put versionKey (.nat step.version)])) rest
        ∧ storeVersion (commit s (muts ++ [.put versionKey (.nat step.version)]))
          = step.version)
    ∧ ((runMigrations s steps).1 = false →
      Init s steps cs doFsck = (false, (runMigrations s steps).2)) := by
  refine ⟨fun hv hf => ?_, fun muts hv hs => ⟨?_, ?_⟩, fun hm => ?_⟩
  · simp [runMigrations, hv, hf]
  · simp [runMigrations, hv, hs]
  · unfold storeVersion
    rw [storeGet_commit, pendingGet_append]
    simp [pendingGet, mutEffect, versionKey]
  · simp [Init, hm]

/-- Witness for C6 at a concrete store: a failing step at version 0 leaves
the store untouched and fails `Init`; a succeeding step commits its effect
together with the version bump and the persisted version becomes 1. -/
theorem migration_step_atomic_witness :
    (storeVersion [] < 1
      ∧ (MigrationStep.mk 1 fun _ => none).transform [] = none
      ∧ (MigrationStep.mk 1 fun _ => some [Mutation.put "a" (Value.str "x")]).transform []
          = some [Mutation.put "a" (Value.str "x")]
      ∧ (runMigrations [] [MigrationStep.mk 1 fun _ => none]).1 = false)
    ∧ runMigrations [] [MigrationStep.mk 1 fun _ => none] = (false, [])
    ∧ (runMigrations [] [MigrationStep.mk 1 fun _ => some [Mutation.put "a" (Value.str "x")]]
        = runMigrations
            (commit [] ([Mutation.put "a" (Value.str "x")] ++ [.put versionKey (.nat 1)])) []
      ∧ storeVersion (commit [] ([Mutation.put "a" (Value.str "x")] ++ [.put versionKey (.nat 1)]))
        = 1)
    ∧ Init [] [MigrationStep.mk 1 fun _ => none] [] false
        = (false, (runMigrations [] [MigrationStep.mk 1 fun _ => none]).2) := by
  have h1 := (migration_step_atomic [] (MigrationStep.mk 1 fun _ => none) []
    [MigrationStep.mk 1 fun _ => none] [] false).1 (by decide) rfl
  have h2 := (migration_step_atomic [] (MigrationStep.mk 1 fun _ => some
    [Mutation.put "a" (Value.str "x")]) [] [] [] false).2.1
    [Mutation.put "a" (Value.str "x")] (by decide) rfl
  have h3 := (migration_step_atomic [] (MigrationStep.mk 1 fun _ => none) []
    [MigrationStep.mk 1 fun _ => none] [] false).2.2 (by rw [h1])
  exact ⟨⟨by decide, rfl, rfl, by rw [h1]⟩, h1, h2, h3⟩

/-! ### Auth metadata

The relevant `AppState` state: the in-memory `auth_` record, the committed
store it is persisted to, and the `fake_logout_` flag. `SetDeviceId`,
`SetUserId` and `is_registered` are translated from the inline code of
`AppState.h` (lines 124--129 and 190); `SetUserAndDeviceId`, `SetAuthCookies`,
`ClearAuthMetadata` and `WriteAuthMetadata` have their bodies in the missing
`AppState.cc` and are modelled from the spec. -/

def authKey : Key := "auth_metadata"

/-- The `AppState` members the auth claims are about. -/
structure AppStateM where
  auth : AuthMetadata
  dbst : Store
  fake_logout : Bool
deriving DecidableEq, Repr

/-- Modelled from the spec: `WriteAuthMetadata` commits the in-memory auth
record to the store under the reserved identity key, synchronously, before
returning. -/
def WriteAuthMetadata (s : AppStateM) : AppStateM :=
  { s with dbst := commit s.dbst [.put authKey (.auth s.auth)] }

/-- Modelled from the spec: `SetUserAndDeviceId` installs both ids and
commits synchronously and durably before returning. -/
def SetUserAndDeviceId (user_id device_id : Int) (s : AppStateM) : AppStateM :=
  WriteAuthMetadata
    { s with auth := { s.auth with user_id := user_id, device_id := device_id } }

/-- Modelled from the spec: `SetAuthCookies` installs both cookies and
commits synchronously and durably before returning. -/
def SetAuthCookies (user_cookie xsrf_cookie : String) (s : AppStateM) : AppStateM :=
  WriteAuthMetadata
    { s with auth := { s.auth with user_cookie := user_cookie, xsrf_cookie := xsrf_cookie } }

/-- Modelled from the spec: `ClearAuthMetadata` clears user/device id and
cookies wholesale (the header comment at `AppState.h` line 132) and commits
synchronously and durably before returning. -/
def ClearAuthMetadata (s : AppStateM) : AppStateM :=
  WriteAuthMetadata { s with auth := ⟨0, 0, "", ""⟩ }

/-- From the source (`AppState.h` lines 124--126):
`void SetDeviceId(int64_t v) { SetUserAndDeviceId(auth_.user_id(), v); }` -/
def SetDeviceId (v : Int) (s : AppStateM) : AppStateM :=
  SetUserAndDeviceId s.auth.user_id v s

/-- From the source (`AppState.h` lines 127--129):
`void SetUserId(int64_t v) { SetUserAndDeviceId(v, auth_.device_id()); }` -/
def SetUserId (v : Int) (s : AppStateM) : AppStateM :=
  SetUserAndDeviceId v s.auth.device_id s

/-- From the source (`AppState.h` line 190):
`bool is_registered() const { return !fake_logout_ && auth_.user_id(); }`
(the `int64_t` user id converts to `bool` as "nonzero"). -/
def is_registered (s : AppStateM) : Bool :=
  !s.fake_logout && s.auth.user_id != 0

/-- The user id a fresh snapshot of the store shows: the one in the persisted
auth record, 0 when no record is persisted. -/
def snapshotUserId (view : Store) : Int :=
  match storeGet view authKey with
  | some (.auth a) => a.user_id
  | _ => 0

/-- C8: `ClearAuthMetadata()` clears user id, device id and both cookies
wholesale and the cleared record is committed to the store before the call
returns, so a snapshot taken afterwards shows no user; `SetUserAndDeviceId`
and `SetAuthCookies` likewise commit their updated record synchronously
before returning. -/
theorem clear_auth_metadata_durable (s : AppStateM) (u d : Int) (uc xc : String) :
    (ClearAuthMetadata s).auth = ⟨0, 0, "", ""⟩
    ∧ storeGet (ClearAuthMetadata s).dbst authKey = some (.auth ⟨0, 0, "", ""⟩)
    ∧ snapshotUserId (ClearAuthMetadata s).dbst = 0
    ∧ storeGet (SetUserAndDeviceId u d s).dbst authKey
        = some (.auth (SetUserAndDeviceId u d s).auth)
    ∧ (SetUserAndDeviceId u d s).auth.user_id = u
    ∧ (SetUserAndDeviceId u d s).auth.device_id = d
    ∧ storeGet (SetAuthCookies uc xc s).dbst authKey
        = some (.auth (SetAuthCookies uc xc s).auth)
    ∧ (SetAuthCookies uc xc s).auth.user_cookie = uc
    ∧ (SetAuthCookies uc xc s).auth.xsrf_cookie = xc := by
  refine ⟨rfl, ?_, ?_, ?_, rfl, rfl, ?_, rfl, rfl⟩ <;>
    simp [ClearAuthMetadata, SetUserAndDeviceId, SetAuthCookies, WriteAuthMetadata,
      commit, applyMut, storeGet, snapshotUserId]

/-- C9: `SetDeviceId(v)` is exactly `SetUserAndDeviceId` with the user id
taken from the current auth metadata, and `SetUserId(v)` is exactly
`SetUserAndDeviceId` with the device id taken from the current auth metadata;
so the one changes only the device id and the other changes only the user id,
leaving the other id, both cookies and the `fake_logout_` flag unchanged. -/
theorem set_device_id_frame (s : AppStateM) (v : Int) :
    SetDeviceId v s = SetUserAndDeviceId s.auth.user_id v s
    ∧ SetUserId v s = SetUserAndDeviceId v s.auth.device_id s
    ∧ (SetDeviceId v s).auth.user_id = s.auth.user_id
    ∧ (SetDeviceId v s).auth.device_id = v
    ∧ (SetDeviceId v s).auth.user_cookie = s.auth.user_cookie
    ∧ (SetDeviceId v s).auth.xsrf_cookie = s.auth.xsrf_cookie
    ∧ (SetDeviceId v s).fake_logout = s.fake_logout
    ∧ (SetUserId v s).auth.device_id = s.auth.device_id
    ∧ (SetUserId v s).auth.user_id = v
    ∧ (SetUserId v s).auth.user_cookie = s.auth.user_cookie
    ∧ (SetUserId v s).auth.xsrf_cookie = s.auth.xsrf_cookie
    ∧ (SetUserId v s).fake_logout = s.fake_logout :=
  ⟨rfl, rfl, rfl, rfl, rfl, rfl, rfl, rfl, rfl, rfl, rfl, rfl⟩

/-- C10: `is_registered()` is true exactly when `fake_logout_` is unset and
the stored user id is nonzero; a user id of 0 reads as not registered, and
whenever `fake_logout_` is set the app reports unregistered no matter what
auth metadata is present. -/
theorem is_registered_iff (s : AppStateM) :
    (is_registered s = true ↔ s.fake_logout = false ∧ s.auth.user_id ≠ 0)
    ∧ (s.auth.user_id = 0 → is_registered s = false)
    ∧ (s.fake_logout = true → is_registered s = false) := by
  refine ⟨?_, fun h => ?_, fun h => ?_⟩
  · cases h : s.fake_logout <;> simp [is_registered, h]
  · simp [is_registered, h]
  · simp [is_registered, h]

/-- Witness for C10: a state with valid auth metadata but `fake_logout_` set
reports unregistered, and a state with user id 0 reports unregistered. -/
theorem is_registered_iff_witness :
    ((AppStateM.mk ⟨7, 9, "c", "x"⟩ [] true).fake_logout = true
      ∧ is_registered (AppStateM.mk ⟨7, 9, "c", "x"⟩ [] true) = false)
    ∧ ((AppStateM.mk ⟨0, 9, "c", "x"⟩ [] false).auth.user_id = 0
      ∧ is_registered (AppStateM.mk ⟨0, 9, "c", "x"⟩ [] false) = false) :=
  ⟨⟨rfl, (is_registered_iff (AppStateM.mk ⟨7, 9, "c", "x"⟩ [] true)).2.2 rfl⟩,
    ⟨rfl, (is_registered_iff (AppStateM.mk ⟨0, 9, "c", "x"⟩ [] false)).2.1 rfl⟩⟩

end Viewfinder
